import Mathlib

/-!
# Currency converter widget (`script.js`): embedding and properties

The script wires a handful of DOM event handlers on one page.  The page is embedded
as a record of the element properties the handlers read and write, and every handler
as a pure function on that record.

The amount field is a number field (`amountInput.type = "number"`, script.js 25): its
value always reads as a valid floating-point number or as the empty string, whatever
text the user has typed, and a string assigned to it that is not a valid floating-point
number is stored as the empty string.  The field of the page record holds the string
`amountInput.value` reads, and every assignment to it goes through that sanitization.
Where a handler cuts a string by position the string is taken as its UTF-16 code units.
-/

set_option autoImplicit false

namespace CurrencyConverter

/-! ## String primitives used by the handlers -/

/-- The character class `\d` of a JavaScript regular expression: `0`-`9`. -/
def isDigit (c : Char) : Bool := '0' ≤ c && c ≤ '9'

/-- The complement of the class `[^0-9.-]`: the characters the paste handler keeps. -/
def isAmountChar (c : Char) : Bool := isDigit c || c == '.' || c == '-'

/-- The method `String.prototype.split` with a one-character separator. -/
def split (sep : Char) : List Char → List (List Char)
  | [] => [[]]
  | c :: cs =>
    if c = sep then [] :: split sep cs
    else match split sep cs with
      | [] => [[c]]
      | p :: ps => (c :: p) :: ps

/-- The method `Array.prototype.join` with the empty separator. -/
def joinEmpty (parts : List (List Char)) : List Char := parts.foldr (· ++ ·) []

/-- The method `String.prototype.indexOf` for one character: `-1` when it is absent. -/
def indexOf (c : Char) (s : List Char) : Int :=
  if c ∈ s then (s.indexOf c : Int) else -1

/-- The UTF-16 code units of a string, the elements a JavaScript string is made of: one
unit for a character of the basic plane, a surrogate pair for any other. -/
def codeUnits : List Char → List Nat
  | [] => []
  | c :: cs =>
    if c.toNat < 0x10000 then c.toNat :: codeUnits cs
    else (0xD800 + (c.toNat - 0x10000) / 0x400) :: (0xDC00 + (c.toNat - 0x10000) % 0x400)
      :: codeUnits cs

/-- The call `value.slice(0, -1)`: everything but the last code unit. -/
def sliceDropLast (s : List Nat) : List Nat := s.dropLast

/-- An optional character at the start of the input (`c?` in a regular expression),
taken when it is there: the rest of the input. -/
def dropOptional (c : Char) : List Char → List Char
  | [] => []
  | x :: r => if x = c then r else x :: r

/-- The test `/^-?\d*\.?\d*$/.test(value)`: an optional `-`, digits, an optional `.`,
digits, and then the end of the input.  Every quantifier is greedy and no two
adjacent pieces can match the same character, so the first match attempt decides
(`amountPattern_iff` below relates it to the meaning of the expression). -/
def amountPattern (s : List Char) : Bool :=
  ((dropOptional '.' ((dropOptional '-' s).dropWhile isDigit)).dropWhile isDigit).isEmpty

/-- The meaning of the regular expression `/^-?\d*\.?\d*$/`: the whole input is an
optional `-`, a run of digits, an optional `.` and a run of digits. -/
def MatchesAmountRegex (s : List Char) : Prop :=
  ∃ sign d1 dot d2 : List Char,
    s = sign ++ d1 ++ dot ++ d2
    ∧ (sign = [] ∨ sign = ['-'])
    ∧ (∀ c ∈ d1, isDigit c = true)
    ∧ (dot = [] ∨ dot = ['.'])
    ∧ (∀ c ∈ d2, isDigit c = true)

/-! ## The value of a number field -/

/-- A sign `-` or `+` at the start of the input, taken when it is there. -/
def dropExponentSign : List Char → List Char
  | [] => []
  | x :: r => if x = '-' ∨ x = '+' then r else x :: r

/-- The end of a valid floating-point number: nothing, or `e` or `E`, an optional sign
and one or more digits. -/
def validExponent : List Char → Bool
  | [] => true
  | c :: t =>
    (c == 'e' || c == 'E')
      && !(dropExponentSign t).isEmpty && (dropExponentSign t).all isDigit

/-- A valid floating-point number of the HTML standard: an optional `-`; then digits,
or digits (possibly none) followed by `.` and one or more digits; then an optional
exponent. -/
def validFloat (s : List Char) : Bool :=
  let s1 := dropOptional '-' s
  match s1.dropWhile isDigit with
  | [] => !(s1.takeWhile isDigit).isEmpty
  | c :: t =>
    if c = '.' then !(t.takeWhile isDigit).isEmpty && validExponent (t.dropWhile isDigit)
    else !(s1.takeWhile isDigit).isEmpty && validExponent (c :: t)

/-- The value sanitization of a number field, on a string given by its code units: the
string itself when it is a valid floating-point number, and otherwise the empty string.
A valid floating-point number is made of ASCII characters only. -/
def sanitizeNumber (u : List Nat) : String :=
  if u.all (fun n => decide (n < 128)) && validFloat (u.map Char.ofNat)
  then String.mk (u.map Char.ofNat) else ""

/-- The value a number field reads when its text is `text`, and the value it stores
when `text` is assigned to it. -/
def numberValue (text : String) : String := sanitizeNumber (codeUnits text.data)

/-! ## Amount field: input and paste handlers -/

/-- The `input` listener of the amount field (script.js 45-54), as the map from the
value it reads to the value the field reads afterwards: a value that fails the test is
cut by one code unit and assigned back to the number field. -/
def inputHandler (value : String) : String :=
  if !amountPattern value.data then sanitizeNumber (sliceDropLast (codeUnits value.data))
  else value

/-- The timer callback of the `paste` listener of the amount field (script.js 58-76),
as the map from the value it reads to the string it assigns back, before the number
field sanitizes it. -/
def pasteHandler (value0 : String) : String :=
  -- value = value.replace(/[^0-9.-]/g, '')
  let value := value0.data.filter isAmountChar
  -- const parts = value.split('.'); if (parts.length > 2) ...
  let parts := split '.' value
  let value :=
    if parts.length > 2 then parts.headD [] ++ ['.'] ++ joinEmpty (parts.drop 1)
    else value
  -- if (value.indexOf('-') > 0) value = value.replace(/-/g, '')
  let value :=
    if indexOf '-' value > 0 then value.filter (· != '-') else value
  String.mk value

/-! ## JavaScript values and the built-ins the script calls -/

/-- The JavaScript built-ins the script calls on numbers and strings.  They belong to
the platform, not to the script, so the embedding takes them as given: every general
property below holds for whatever these functions are, IEEE-754 doubles included. -/
structure Builtins where
  /-- The type of JavaScript numbers. -/
  Num : Type
  /-- The value `NaN`. -/
  nan : Num
  /-- The number denoted by a non-negative integer literal. -/
  ofNat : Nat → Num
  /-- The global function `parseFloat`. -/
  parseFloat : String → Num
  /-- The abstract operation `StringToNumber` (used by `*` on a string operand). -/
  stringToNumber : String → Num
  /-- The global function `isNaN`, on a number. -/
  isNaN : Num → Bool
  /-- The comparison `x <= 0`. -/
  leZero : Num → Bool
  /-- Whether the number is `+0` or `-0`. -/
  isZero : Num → Bool
  /-- The operator `*` on two numbers. -/
  mul : Num → Num → Num
  /-- The call `x.toFixed(2)`. -/
  toFixed2 : Num → String
  /-- The abstract operation `Number::toString`, as used by a template literal. -/
  numberToString : Num → String
  /-- The method `String.prototype.toLowerCase`. -/
  toLowerCase : String → String

/-- A value as `response.json()` can produce it, together with `undefined`, which
reading an absent property yields.  An object lists its members, each key once. -/
inductive JSValue (Num : Type) where
  | undefined
  | null
  | bool (b : Bool)
  | num (n : Num)
  | str (s : String)
  | arr (xs : List (JSValue Num))
  | obj (fs : List (String × JSValue Num))

/-- The abstract operation `ToBoolean`, which `!rate` applies. -/
def toBoolean (B : Builtins) : JSValue B.Num → Bool
  | .undefined => false
  | .null => false
  | .bool b => b
  | .num n => !(B.isZero n || B.isNaN n)
  | .str s => !s.data.isEmpty
  | .arr _ => true
  | .obj _ => true

/-- The conversion of a decoded object to a string.  The object inherits `toString`
from `Object.prototype`, which gives `[object Object]`, unless it has a member of its own
named `toString`: a decoded member is never callable, and the conversion then throws a
`TypeError`. -/
def objectToString {Num : Type} (fs : List (String × JSValue Num)) : Except String String :=
  if (fs.lookup "toString").isSome then .error "TypeError: Cannot convert object to primitive value"
  else .ok "[object Object]"

mutual
/-- The abstract operation `ToString` on a value. -/
def toStringJS (B : Builtins) : JSValue B.Num → Except String String
  | .undefined => .ok "undefined"
  | .null => .ok "null"
  | .bool b => .ok (if b then "true" else "false")
  | .num n => .ok (B.numberToString n)
  | .str s => .ok s
  | .arr xs => joinComma B xs
  | .obj fs => objectToString fs
/-- The method `Array.prototype.join` with the default separator `,`; `null` and
`undefined` elements contribute the empty string. -/
def joinComma (B : Builtins) : List (JSValue B.Num) → Except String String
  | [] => .ok ""
  | [x] => elementString B x
  | x :: y :: r =>
    match elementString B x with
    | .error e => .error e
    | .ok a =>
      match joinComma B (y :: r) with
      | .error e => .error e
      | .ok b => .ok (a ++ "," ++ b)
/-- The string one array element contributes to `join`. -/
def elementString (B : Builtins) : JSValue B.Num → Except String String
  | .undefined => .ok ""
  | .null => .ok ""
  | .bool b => .ok (if b then "true" else "false")
  | .num n => .ok (B.numberToString n)
  | .str s => .ok s
  | .arr xs => joinComma B xs
  | .obj fs => objectToString fs
end

/-- The abstract operation `ToNumber`, which `*` applies to its operands; it throws
when the conversion of an object to a primitive does. -/
def toNumber (B : Builtins) : JSValue B.Num → Except String B.Num
  | .undefined => .ok B.nan
  | .null => .ok (B.ofNat 0)
  | .bool b => .ok (B.ofNat (if b then 1 else 0))
  | .num n => .ok n
  | .str s => .ok (B.stringToNumber s)
  | .arr xs =>
    match joinComma B xs with
    | .error e => .error e
    | .ok t => .ok (B.stringToNumber t)
  | .obj fs =>
    match objectToString fs with
    | .error e => .error e
    | .ok t => .ok (B.stringToNumber t)

/-- The value of a canonical array index: a decimal numeral without a leading zero. -/
def arrayIndex (k : String) : Option Nat :=
  match k.data with
  | [] => none
  | ['0'] => some 0
  | c :: cs =>
    if c ≠ '0' ∧ (c :: cs).all isDigit then
      some ((c :: cs).foldl (fun a d => 10 * a + (d.toNat - 48)) 0)
    else none

/-- Whether the value has an own property named `k`: a member of an object, an
element or the `length` of an array or of a string. -/
def hasOwn {Num : Type} (v : JSValue Num) (k : String) : Bool :=
  match v with
  | .obj fs => (fs.lookup k).isSome
  | .arr xs => k == "length" || (match arrayIndex k with
      | some i => decide (i < xs.length)
      | none => false)
  | .str s => k == "length" || (match arrayIndex k with
      | some i => decide (i < s.data.length)
      | none => false)
  | _ => false

/-- The property read `v[k]`.  Reading a property of `undefined` or `null` throws a
`TypeError`; an absent property reads as `undefined`.  Own properties only: the
methods a value inherits from its prototype are left out. -/
def getProp (B : Builtins) (v : JSValue B.Num) (k : String) : Except String (JSValue B.Num) :=
  match v with
  | .undefined => .error "TypeError: Cannot read properties of undefined"
  | .null => .error "TypeError: Cannot read properties of null"
  | .obj fs => .ok ((fs.lookup k).getD .undefined)
  | .arr xs =>
    if k == "length" then .ok (.num (B.ofNat xs.length))
    else match arrayIndex k with
      | some i => .ok (xs.getD i .undefined)
      | none => .ok .undefined
  | .str s =>
    if k == "length" then .ok (.num (B.ofNat s.data.length))
    else match arrayIndex k with
      | some i => .ok ((s.data.get? i).elim .undefined (fun c => .str (String.singleton c)))
      | none => .ok .undefined
  | .bool _ => .ok .undefined
  | .num _ => .ok .undefined

/-! ## The page -/

/-- The constant `baseURL` (script.js 1). -/
def baseURL : String :=
  "https://cdn.jsdelivr.net/npm/@fawazahmed0/currency-api@latest/v1/currencies"

/-- The properties of a flag image the script writes. -/
structure Img where
  src : String
  alt : String
  deriving DecidableEq, Repr

/-- The element properties the handlers read and write.  Each select has its own
parent element, whose first image, when there is one, is the flag of that select. -/
structure Page where
  /-- The text `msg.innerText`. -/
  msg : String
  /-- The text `btn.innerText`. -/
  btnText : String
  /-- The flag `btn.disabled`. -/
  btnDisabled : Bool
  /-- The string `amountInput.value` reads: a valid floating-point number or `""`. -/
  amountInput : String
  /-- The string `fromCurr.value`. -/
  fromCurr : String
  /-- The string `toCurr.value`. -/
  toCurr : String
  /-- The image found by `fromCurr.parentElement.querySelector("img")`. -/
  fromImg : Option Img
  /-- The image found by `toCurr.parentElement.querySelector("img")`. -/
  toImg : Option Img
  /-- The style `swapBtn.style.transform`. -/
  swapTransform : String
  deriving DecidableEq, Repr

/-- The two selects, as the argument of `updateFlag`. -/
inductive Select where
  | fromCurr
  | toCurr
  deriving DecidableEq, Repr

/-- The property read `countryList[currCode]` inside a template literal; the global
`countryList` (code to country, defined outside this script) is a list of members. -/
def countryCode (countryList : List (String × String)) (currCode : String) : String :=
  (countryList.lookup currCode).getD "undefined"

/-- The assignment `select.value = v` on a select whose options are the keys of
`countryList` (script.js 80-92): the option with that value gets selected, and when
there is none the select is left without a selection, its value reading as `""`. -/
def setSelectValue (countryList : List (String × String)) (v : String) : String :=
  if (countryList.lookup v).isSome then v else ""

/-! ## Handlers -/

/-- The `blur` listener of the amount field (script.js 31-42), as the map from the
value it reads to the value it writes back. -/
def blurHandler (B : Builtins) (value0 : String) : String :=
  let value := B.parseFloat value0
  if B.isNaN value || B.leZero value then "1" else B.toFixed2 value

/-- The `blur` listener on the page. -/
def onBlur (B : Builtins) (s : Page) : Page :=
  { s with amountInput := numberValue (blurHandler B s.amountInput) }

/-- The `input` listener on the page, run after an edit that leaves the text `typed` in
the amount field: the handler reads the value of the field for that text. -/
def onInput (typed : String) (s : Page) : Page :=
  { s with amountInput := inputHandler (numberValue typed) }

/-- The timer callback of the `paste` listener on the page. -/
def onPaste (s : Page) : Page :=
  { s with amountInput := numberValue (pasteHandler s.amountInput) }

/-- The function `updateFlag` (script.js 148-157). -/
def updateFlag (countryList : List (String × String)) (element : Select) (s : Page) : Page :=
  let currCode := match element with
    | .fromCurr => s.fromCurr
    | .toCurr => s.toCurr
  let newSrc := "https://flagsapi.com/" ++ countryCode countryList currCode ++ "/flat/64.png"
  let img := Img.mk newSrc (currCode ++ " flag")
  match element with
  | .fromCurr => { s with fromImg := s.fromImg.map (fun _ => img) }
  | .toCurr => { s with toImg := s.toImg.map (fun _ => img) }

/-- The `change` listener of a select (script.js 94-97), run after the user has picked
the option `code` in it. -/
def changeHandler (countryList : List (String × String)) (element : Select) (code : String)
    (s : Page) : Page :=
  match element with
  | .fromCurr => updateFlag countryList .fromCurr { s with fromCurr := code }
  | .toCurr => updateFlag countryList .toCurr { s with toCurr := code }

/-- The `click` listener of the swap button (script.js 163-182), up to its return; the
timer it starts resets the rotation later. -/
def swapHandler (countryList : List (String × String)) (s : Page) : Page :=
  let s := { s with swapTransform := "rotate(180deg)" }
  let temp := s.fromCurr
  let s := { s with fromCurr := setSelectValue countryList s.toCurr }
  let s := { s with toCurr := setSelectValue countryList temp }
  let s := updateFlag countryList .fromCurr s
  updateFlag countryList .toCurr s

/-- The timer callback of the swap button (script.js 168-170). -/
def swapTimer (s : Page) : Page :=
  { s with swapTransform := "rotate(0deg)" }

/-- The `online` listener (script.js 207-210): an empty body. -/
def onlineHandler (s : Page) : Page := s

/-- The `offline` listener (script.js 212-214). -/
def offlineHandler (s : Page) : Page :=
  { s with msg := "No internet connection. Please check your connection." }

/-! ## The conversion: `updateExchangeRate` -/

/-- How the awaited network calls settle: `fetch(URL)` rejects, or it resolves to a
response with its `ok` flag, its status and the outcome of `response.json()`
(`none` when decoding rejects). -/
inductive FetchOutcome (Num : Type) where
  | rejected
  | response (ok : Bool) (status : Nat) (json : Option (JSValue Num))

/-- The text the `catch` block shows. -/
def errorText : String := "Error getting exchange rate. Please try again."

/-- The function `updateExchangeRate` up to the call `fetch(URL)` (script.js 101-116):
the page as the call leaves it, the amount `amtVal` and the URL requested. -/
def updateExchangeRateBegin (B : Builtins) (s : Page) : Page × B.Num × String :=
  let s := { s with msg := "Getting exchange rate..." }
  let s := { s with btnText := "Loading..." }
  let s := { s with btnDisabled := true }
  let amtVal := B.parseFloat s.amountInput
  let (amtVal, s) :=
    if B.isNaN amtVal || B.leZero amtVal then (B.ofNat 1, { s with amountInput := numberValue "1" })
    else (amtVal, s)
  let URL := baseURL ++ "/" ++ B.toLowerCase s.fromCurr ++ ".json"
  (s, amtVal, URL)

/-- The rest of the `try` block (script.js 116-138), run on the page `s` as it is when
the awaited calls have settled; an exception is an `error`. -/
def updateExchangeRateTry (B : Builtins) (amtVal : B.Num) (s : Page)
    (r : FetchOutcome B.Num) : Except String Page :=
  match r with
  | .rejected => .error "TypeError: Failed to fetch"
  | .response ok status json =>
    if !ok then .error ("HTTP error! status: " ++ toString status)
    else match json with
      | none => .error "SyntaxError: the body is not JSON"
      | some data => do
        let inner ← getProp B data (B.toLowerCase s.fromCurr)
        let rate ← getProp B inner (B.toLowerCase s.toCurr)
        if !toBoolean B rate then .error "Exchange rate not found"
        else
          let product ← toNumber B rate
          let finalAmount := B.toFixed2 (B.mul amtVal product)
          let s := { s with msg := B.numberToString amtVal ++ " " ++ s.fromCurr ++ " = "
                                    ++ finalAmount ++ " " ++ s.toCurr }
          let s := { s with btnText := "Get Exchange Rate" }
          pure { s with btnDisabled := false }

/-- The function `updateExchangeRate` from the point where the awaited calls settle
(script.js 116-145): the `try` block, and the `catch` block when it throws. -/
def updateExchangeRateResume (B : Builtins) (amtVal : B.Num) (s : Page)
    (r : FetchOutcome B.Num) : Page :=
  match updateExchangeRateTry B amtVal s r with
  | .ok s' => s'
  | .error _ =>
    let s := { s with msg := errorText }
    let s := { s with btnText := "Get Exchange Rate" }
    { s with btnDisabled := false }

/-- One run of `updateExchangeRate` (script.js 100-146).  The network `net` tells how
the request to a URL settles, and `during` is what the other handlers do to the page
while the run waits.  The result is the final page and the URLs requested. -/
def updateExchangeRate (B : Builtins) (net : String → FetchOutcome B.Num)
    (during : Page → Page) (s : Page) : Page × List String :=
  let (s1, amtVal, URL) := updateExchangeRateBegin B s
  (updateExchangeRateResume B amtVal (during s1) (net URL), [URL])

/-! ## A concrete platform: exact decimal arithmetic

The built-ins are instantiated by exact decimal arithmetic, so that the handlers can be
evaluated on concrete pages.  A number is `NaN`, an infinity, or a signed decimal
`m / 10 ^ e`; there is no binary rounding and no overflow.  The inputs evaluated below
are short decimals, on which this agrees with double arithmetic. -/

/-- A number of the concrete platform. -/
inductive Dec where
  | nan
  | inf (neg : Bool)
  | fin (neg : Bool) (m : Nat) (e : Nat)
  deriving DecidableEq, Repr

/-- The value of a run of decimal digits. -/
def digitsValue (ds : List Char) : Nat :=
  ds.foldl (fun a d => 10 * a + (d.toNat - 48)) 0

/-- White space and line terminators, as `parseFloat` and `StringToNumber` skip them. -/
def isWhiteSpace (c : Char) : Bool :=
  let n := c.toNat
  n == 9 || n == 10 || n == 11 || n == 12 || n == 13 || n == 32 || n == 0xA0
    || n == 0x1680 || (0x2000 ≤ n && n ≤ 0x200A) || n == 0x2028 || n == 0x2029
    || n == 0x202F || n == 0x205F || n == 0x3000 || n == 0xFEFF

/-- An exponent part `e`, `e+` or `e-` followed by digits, when the input starts with
one: the exponent and the rest of the input. -/
def scanExponent (s : List Char) : Int × List Char :=
  match s with
  | [] => (0, [])
  | c :: r =>
    if c = 'e' ∨ c = 'E' then
      let (neg, t) := match r with
        | '-' :: t => (true, t)
        | '+' :: t => (false, t)
        | _ => (false, r)
      let ds := t.takeWhile isDigit
      if ds.isEmpty then (0, s)
      else ((if neg then -(digitsValue ds : Int) else (digitsValue ds : Int)),
            t.dropWhile isDigit)
    else (0, s)

/-- The decimal `±m / 10 ^ e` times `10 ^ x`. -/
def Dec.scale (neg : Bool) (m e : Nat) (x : Int) : Dec :=
  if 0 ≤ x then .fin neg (m * 10 ^ x.toNat) e else .fin neg m (e + (-x).toNat)

/-- The longest prefix of the input that is a `StrDecimalLiteral` (a sign, then
`Infinity` or digits with an optional fraction and exponent): its value, `NaN` when
there is no such prefix, and the rest of the input. -/
def scanDecimal (s : List Char) : Dec × List Char :=
  let (neg, s1) := match s with
    | '-' :: t => (true, t)
    | '+' :: t => (false, t)
    | _ => (false, s)
  if "Infinity".data.isPrefixOf s1 then (.inf neg, s1.drop 8)
  else
    let d1 := s1.takeWhile isDigit
    let r1 := s1.dropWhile isDigit
    let (d2, r2) := match r1 with
      | '.' :: t => (t.takeWhile isDigit, t.dropWhile isDigit)
      | _ => ([], r1)
    if d1.isEmpty && d2.isEmpty then (.nan, s)
    else
      let (x, r3) := scanExponent r2
      (Dec.scale neg (digitsValue (d1 ++ d2)) d2.length x, r3)

/-- The global function `parseFloat` on the concrete platform. -/
def Dec.parseFloat (s : String) : Dec :=
  (scanDecimal (s.data.dropWhile isWhiteSpace)).1

/-- The value of one digit in a radix up to 16. -/
def radixDigit (c : Char) : Nat :=
  if isDigit c then c.toNat - 48
  else if 'a' ≤ c ∧ c ≤ 'f' then c.toNat - 87
  else if 'A' ≤ c ∧ c ≤ 'F' then c.toNat - 55
  else 16

/-- A non-decimal integer literal without its two-character marker. -/
def scanRadix (b : Nat) (ds : List Char) : Dec :=
  if ds.isEmpty || ds.any (fun c => decide (b ≤ radixDigit c)) then .nan
  else .fin false (ds.foldl (fun a d => b * a + radixDigit d) 0) 0

/-- The abstract operation `StringToNumber` on the concrete platform. -/
def Dec.stringToNumber (s : String) : Dec :=
  let t := ((s.data.dropWhile isWhiteSpace).reverse.dropWhile isWhiteSpace).reverse
  match t with
  | [] => .fin false 0 0
  | '0' :: 'x' :: ds => scanRadix 16 ds
  | '0' :: 'X' :: ds => scanRadix 16 ds
  | '0' :: 'o' :: ds => scanRadix 8 ds
  | '0' :: 'O' :: ds => scanRadix 8 ds
  | '0' :: 'b' :: ds => scanRadix 2 ds
  | '0' :: 'B' :: ds => scanRadix 2 ds
  | _ =>
    let (d, rest) := scanDecimal t
    if rest.isEmpty then d else .nan

/-- The operator `*` on the concrete platform. -/
def Dec.mul : Dec → Dec → Dec
  | .nan, _ => .nan
  | _, .nan => .nan
  | .inf a, .inf b => .inf (a != b)
  | .inf a, .fin b m _ => if m = 0 then .nan else .inf (a != b)
  | .fin a m _, .inf b => if m = 0 then .nan else .inf (a != b)
  | .fin a m e, .fin b m' e' => .fin (a != b) (m * m') (e + e')

/-- The abstract operation `Number::toString` (radix 10) on the concrete platform. -/
def Dec.toStr : Dec → String
  | .nan => "NaN"
  | .inf neg => if neg then "-Infinity" else "Infinity"
  | .fin neg m e =>
    if m = 0 then "0"
    else
      let all := (toString m).data
      let ds := (all.reverse.dropWhile (· == '0')).reverse
      let k : Int := ds.length
      let n : Int := (all.length : Int) - (e : Int)
      let body : List Char :=
        if k ≤ n ∧ n ≤ 21 then ds ++ List.replicate (n - k).toNat '0'
        else if 0 < n ∧ n ≤ 21 then ds.take n.toNat ++ ['.'] ++ ds.drop n.toNat
        else if -6 < n ∧ n ≤ 0 then ['0', '.'] ++ List.replicate (-n).toNat '0' ++ ds
        else
          let x := (if 0 ≤ n - 1 then "+" else "-") ++ toString (n - 1).natAbs
          match ds with
          | [] => []
          | [d] => [d, 'e'] ++ x.data
          | d :: rest => [d, '.'] ++ rest ++ ['e'] ++ x.data
      (if neg then "-" else "") ++ String.mk body

/-- The call `x.toFixed(2)` on the concrete platform: the nearest multiple of `0.01`,
the larger one on a tie, printed with two decimals. -/
def Dec.toFixed2 : Dec → String
  | .nan => "NaN"
  | .inf neg => if neg then "-Infinity" else "Infinity"
  | .fin neg m e =>
    if 10 ^ (21 + e) ≤ m then Dec.toStr (.fin neg m e)
    else
      let n := (200 * m + 10 ^ e) / (2 * 10 ^ e)
      (if neg && m != 0 then "-" else "") ++ toString (n / 100) ++ "."
        ++ (if n % 100 < 10 then "0" else "") ++ toString (n % 100)

/-- The concrete platform. -/
def decimalBuiltins : Builtins where
  Num := Dec
  nan := .nan
  ofNat n := .fin false n 0
  parseFloat := Dec.parseFloat
  stringToNumber := Dec.stringToNumber
  isNaN x := match x with
    | .nan => true
    | _ => false
  leZero x := match x with
    | .nan => false
    | .inf neg => neg
    | .fin neg m _ => neg || m == 0
  isZero x := match x with
    | .fin _ m _ => m == 0
    | _ => false
  mul := Dec.mul
  toFixed2 := Dec.toFixed2
  numberToString := Dec.toStr
  toLowerCase s := String.mk (s.data.map Char.toLower)

/-! ## Concrete pages and responses used in the evaluations -/

/-- A page as it is after loading: USD to INR, amount `1`, both flags present. -/
def samplePage : Page where
  msg := "1 USD = 80 INR"
  btnText := "Get Exchange Rate"
  btnDisabled := false
  amountInput := "1"
  fromCurr := "USD"
  toCurr := "INR"
  fromImg := some (Img.mk "https://flagsapi.com/US/flat/64.png" "USD flag")
  toImg := some (Img.mk "https://flagsapi.com/IN/flat/64.png" "INR flag")
  swapTransform := ""

/-- A three-entry `countryList`. -/
def sampleCountryList : List (String × String) :=
  [("USD", "US"), ("INR", "IN"), ("EUR", "FR")]

/-- The response body `{"usd": {"inr": r}}`. -/
def usdInrBody (r : Dec) : JSValue Dec :=
  .obj [("usd", .obj [("inr", .num r)])]

/-- The response body `{"usd": {"inr": 83.15}, "eur": {"inr": 90}}`. -/
def usdEurBody : JSValue Dec :=
  .obj [("usd", .obj [("inr", .num (.fin false 8315 2))]),
        ("eur", .obj [("inr", .num (.fin false 90 0))])]

/-- A network that answers every request with status 200 and the given body. -/
def okNetwork (body : JSValue Dec) : String → FetchOutcome Dec :=
  fun _ => .response true 200 (some body)

/-! ## Notions used in the statements -/

/-- The rate the script reads from a decoded body for the selected pair:
`data[from.toLowerCase()][to.toLowerCase()]`. -/
def rateLookup (B : Builtins) (data : JSValue B.Num) (fromCode toCode : String) :
    Except String (JSValue B.Num) :=
  match getProp B data (B.toLowerCase fromCode) with
  | .error e => .error e
  | .ok inner => getProp B inner (B.toLowerCase toCode)

/-- The amount `updateExchangeRate` converts: the parsed field value, and `1` when
that is `NaN` or not positive. -/
def normalizedAmount (B : Builtins) (value : String) : B.Num :=
  if B.isNaN (B.parseFloat value) || B.leZero (B.parseFloat value) then B.ofNat 1
  else B.parseFloat value

/-- The page the `catch` block leaves. -/
def errorPage (s : Page) : Page :=
  { s with msg := errorText, btnText := "Get Exchange Rate", btnDisabled := false }

/-- The page a successful conversion leaves. -/
def resultPage (B : Builtins) (amtVal : B.Num) (s : Page) (rate : B.Num) : Page :=
  { s with
    msg := B.numberToString amtVal ++ " " ++ s.fromCurr ++ " = "
      ++ B.toFixed2 (B.mul amtVal rate) ++ " " ++ s.toCurr,
    btnText := "Get Exchange Rate",
    btnDisabled := false }

/-! ## Lemmas on `updateExchangeRate` -/

theorem numberValue_one : numberValue "1" = "1" := by decide

theorem updateExchangeRate_eq (B : Builtins) (net : String → FetchOutcome B.Num)
    (during : Page → Page) (s : Page) :
    updateExchangeRate B net during s =
      (updateExchangeRateResume B (updateExchangeRateBegin B s).2.1
          (during (updateExchangeRateBegin B s).1) (net (updateExchangeRateBegin B s).2.2),
        [(updateExchangeRateBegin B s).2.2]) := rfl

theorem begin_url (B : Builtins) (s : Page) :
    (updateExchangeRateBegin B s).2.2 = baseURL ++ "/" ++ B.toLowerCase s.fromCurr ++ ".json" := by
  unfold updateExchangeRateBegin
  by_cases h : (B.isNaN (B.parseFloat s.amountInput) || B.leZero (B.parseFloat s.amountInput)) = true
  · simp [h]
  · simp [h]

theorem begin_amtVal (B : Builtins) (s : Page) :
    (updateExchangeRateBegin B s).2.1 = normalizedAmount B s.amountInput := by
  unfold updateExchangeRateBegin normalizedAmount
  by_cases h : (B.isNaN (B.parseFloat s.amountInput) || B.leZero (B.parseFloat s.amountInput)) = true
  · simp [h]
  · simp [h]

theorem begin_page (B : Builtins) (s : Page) :
    (updateExchangeRateBegin B s).1 =
      { s with
        msg := "Getting exchange rate...",
        btnText := "Loading...",
        btnDisabled := true,
        amountInput :=
          if B.isNaN (B.parseFloat s.amountInput) || B.leZero (B.parseFloat s.amountInput)
          then "1" else s.amountInput } := by
  unfold updateExchangeRateBegin
  by_cases h : (B.isNaN (B.parseFloat s.amountInput) || B.leZero (B.parseFloat s.amountInput)) = true
  · simp [h, numberValue_one]
  · simp [h]

theorem try_decoded (B : Builtins) (amtVal : B.Num) (s : Page) (status : Nat)
    (data : JSValue B.Num) :
    updateExchangeRateTry B amtVal s (.response true status (some data)) =
      match rateLookup B data s.fromCurr s.toCurr with
      | .error e => .error e
      | .ok rate =>
        if toBoolean B rate then
          match toNumber B rate with
          | .error e => .error e
          | .ok n => .ok (resultPage B amtVal s n)
        else .error "Exchange rate not found" := by
  unfold updateExchangeRateTry rateLookup
  cases h1 : getProp B data (B.toLowerCase s.fromCurr) with
  | error e => simp [h1, bind, Except.bind]
  | ok inner =>
    cases h2 : getProp B inner (B.toLowerCase s.toCurr) with
    | error e => simp [h1, h2, bind, Except.bind]
    | ok rate =>
      cases h3 : toBoolean B rate with
      | false => simp [h1, h2, h3, bind, Except.bind]
      | true =>
        cases h4 : toNumber B rate with
        | error e => simp [h1, h2, h3, h4, bind, Except.bind]
        | ok n => simp [h1, h2, h3, h4, bind, Except.bind, pure, Except.pure, resultPage]

theorem resume_of_error (B : Builtins) (amtVal : B.Num) (s : Page) (r : FetchOutcome B.Num)
    (e : String) (h : updateExchangeRateTry B amtVal s r = .error e) :
    updateExchangeRateResume B amtVal s r = errorPage s := by
  simp [updateExchangeRateResume, h, errorPage]

theorem resume_of_ok (B : Builtins) (amtVal : B.Num) (s : Page) (r : FetchOutcome B.Num)
    (s' : Page) (h : updateExchangeRateTry B amtVal s r = .ok s') :
    updateExchangeRateResume B amtVal s r = s' := by
  simp [updateExchangeRateResume, h]

theorem resume_cases (B : Builtins) (amtVal : B.Num) (s : Page) (r : FetchOutcome B.Num) :
    updateExchangeRateResume B amtVal s r = errorPage s
    ∨ ∃ n, updateExchangeRateResume B amtVal s r = resultPage B amtVal s n := by
  cases r with
  | rejected => exact Or.inl (resume_of_error B amtVal s _ _ rfl)
  | response ok status json =>
    cases ok with
    | false => exact Or.inl (resume_of_error B amtVal s _ _ rfl)
    | true =>
      cases json with
      | none => exact Or.inl (resume_of_error B amtVal s _ _ rfl)
      | some data =>
        have h := try_decoded B amtVal s status data
        cases hl : rateLookup B data s.fromCurr s.toCurr with
        | error e =>
          rw [hl] at h
          exact Or.inl (resume_of_error B amtVal s _ _ h)
        | ok rate =>
          rw [hl] at h
          cases hb : toBoolean B rate with
          | false =>
            simp [hb] at h
            exact Or.inl (resume_of_error B amtVal s _ _ h)
          | true =>
            cases hn : toNumber B rate with
            | error e =>
              simp [hb, hn] at h
              exact Or.inl (resume_of_error B amtVal s _ _ h)
            | ok n =>
              simp [hb, hn] at h
              exact Or.inr ⟨n, resume_of_ok B amtVal s _ _ h⟩

theorem resume_success (B : Builtins) (amtVal : B.Num) (s : Page) (status : Nat)
    (data rate : JSValue B.Num) (n : B.Num)
    (hl : rateLookup B data s.fromCurr s.toCurr = .ok rate) (hb : toBoolean B rate = true)
    (hn : toNumber B rate = .ok n) :
    updateExchangeRateResume B amtVal s (.response true status (some data))
      = resultPage B amtVal s n := by
  apply resume_of_ok
  rw [try_decoded, hl]
  simp [hb, hn]

theorem resume_conversion_error (B : Builtins) (amtVal : B.Num) (s : Page) (status : Nat)
    (data rate : JSValue B.Num) (e : String)
    (hl : rateLookup B data s.fromCurr s.toCurr = .ok rate) (hb : toBoolean B rate = true)
    (hn : toNumber B rate = .error e) :
    updateExchangeRateResume B amtVal s (.response true status (some data)) = errorPage s := by
  apply resume_of_error B amtVal s _ e
  rw [try_decoded, hl]
  simp [hb, hn]

theorem resume_falsy (B : Builtins) (amtVal : B.Num) (s : Page) (status : Nat)
    (data rate : JSValue B.Num)
    (hl : rateLookup B data s.fromCurr s.toCurr = .ok rate) (hb : toBoolean B rate = false) :
    updateExchangeRateResume B amtVal s (.response true status (some data)) = errorPage s := by
  apply resume_of_error B amtVal s _ "Exchange rate not found"
  rw [try_decoded, hl]
  simp [hb]

theorem resume_lookup_error (B : Builtins) (amtVal : B.Num) (s : Page) (status : Nat)
    (data : JSValue B.Num) (e : String)
    (hl : rateLookup B data s.fromCurr s.toCurr = .error e) :
    updateExchangeRateResume B amtVal s (.response true status (some data)) = errorPage s := by
  apply resume_of_error B amtVal s _ e
  rw [try_decoded, hl]

theorem getProp_of_not_hasOwn (B : Builtins) (v r : JSValue B.Num) (k : String)
    (h : hasOwn v k = false) (hr : getProp B v k = .ok r) : r = .undefined := by
  cases v with
  | undefined => simp [getProp] at hr
  | null => simp [getProp] at hr
  | bool b => simp [getProp] at hr; exact hr.symm
  | num n => simp [getProp] at hr; exact hr.symm
  | str s =>
    simp only [hasOwn, Bool.or_eq_false_iff] at h
    obtain ⟨hk, hi⟩ := h
    simp only [getProp, hk] at hr
    cases ha : arrayIndex k with
    | none => simp [ha] at hr; exact hr.symm
    | some i =>
      simp [ha] at hr hi
      have hnone : s.data[i]? = none := List.getElem?_eq_none hi
      simp [hnone] at hr
      exact hr.symm
  | arr xs =>
    simp only [hasOwn, Bool.or_eq_false_iff] at h
    obtain ⟨hk, hi⟩ := h
    simp only [getProp, hk] at hr
    cases ha : arrayIndex k with
    | none => simp [ha] at hr; exact hr.symm
    | some i =>
      simp [ha] at hr hi
      have hnone : xs[i]? = none := List.getElem?_eq_none hi
      simp [hnone] at hr
      exact hr.symm
  | obj fs =>
    simp only [hasOwn] at h
    have hn : fs.lookup k = none := by
      cases hl : fs.lookup k with
      | none => rfl
      | some x => simp [hl] at h
    simp [getProp, hn] at hr
    exact hr.symm

theorem rateLookup_missing (B : Builtins) (data : JSValue B.Num) (fromCode toCode : String)
    (h : hasOwn data (B.toLowerCase fromCode) = false
      ∨ ∃ inner, getProp B data (B.toLowerCase fromCode) = .ok inner
          ∧ hasOwn inner (B.toLowerCase toCode) = false) :
    (∃ e, rateLookup B data fromCode toCode = .error e)
    ∨ rateLookup B data fromCode toCode = .ok .undefined := by
  unfold rateLookup
  rcases h with h | ⟨inner, hi, hm⟩
  · cases hg : getProp B data (B.toLowerCase fromCode) with
    | error e => exact Or.inl ⟨e, rfl⟩
    | ok inner =>
      have := getProp_of_not_hasOwn B data inner _ h hg
      subst this
      exact Or.inl ⟨_, rfl⟩
  · rw [hi]
    show (∃ e, getProp B inner (B.toLowerCase toCode) = .error e)
      ∨ getProp B inner (B.toLowerCase toCode) = .ok .undefined
    cases hg : getProp B inner (B.toLowerCase toCode) with
    | error e => exact Or.inl ⟨e, rfl⟩
    | ok rate =>
      have := getProp_of_not_hasOwn B inner rate _ hm hg
      subst this
      exact Or.inr rfl

/-! ## Properties of the input and paste handlers -/

theorem dropWhile_digits_append (d r : List Char) (h : ∀ c ∈ d, isDigit c = true) :
    (d ++ r).dropWhile isDigit = r.dropWhile isDigit := by
  induction d with
  | nil => rfl
  | cons x xs ih =>
    have hx : isDigit x = true := h x (List.mem_cons_self _ _)
    simp only [List.cons_append, List.dropWhile_cons, hx, if_true]
    exact ih (fun c hc => h c (List.mem_cons_of_mem _ hc))

theorem dropWhile_digits (d : List Char) (h : ∀ c ∈ d, isDigit c = true) :
    d.dropWhile isDigit = [] := by
  have := dropWhile_digits_append d [] h
  simpa using this

theorem dropOptional_split (c : Char) (s : List Char) :
    ∃ o : List Char, (o = [] ∨ o = [c]) ∧ s = o ++ dropOptional c s := by
  cases s with
  | nil => exact ⟨[], Or.inl rfl, rfl⟩
  | cons x r =>
    by_cases hx : x = c
    · exact ⟨[c], Or.inr rfl, by simp [dropOptional, hx]⟩
    · exact ⟨[], Or.inl rfl, by simp [dropOptional, hx]⟩

theorem dropOptional_minus (d1 dot d2 : List Char) (h1 : ∀ c ∈ d1, isDigit c = true)
    (hdot : dot = [] ∨ dot = ['.']) (h2 : ∀ c ∈ d2, isDigit c = true) :
    dropOptional '-' (d1 ++ dot ++ d2) = d1 ++ dot ++ d2 := by
  have hm : isDigit '-' = false := by decide
  cases d1 with
  | cons x xs =>
    have hx : isDigit x = true := h1 x (List.mem_cons_self _ _)
    have : x ≠ '-' := by
      intro e; rw [e, hm] at hx; exact Bool.noConfusion hx
    simp [dropOptional, this]
  | nil =>
    rcases hdot with rfl | rfl
    · cases d2 with
      | nil => rfl
      | cons y ys =>
        have hy : isDigit y = true := h2 y (List.mem_cons_self _ _)
        have : y ≠ '-' := by
          intro e; rw [e, hm] at hy; exact Bool.noConfusion hy
        simp [dropOptional, this]
    · simp [dropOptional]

/-- The executable test agrees with the meaning of the regular expression. -/
theorem amountPattern_iff (s : List Char) : amountPattern s = true ↔ MatchesAmountRegex s := by
  constructor
  · intro h
    obtain ⟨sign, hsign, hs⟩ := dropOptional_split '-' s
    obtain ⟨dot, hdot, hr⟩ := dropOptional_split '.' ((dropOptional '-' s).dropWhile isDigit)
    have hempty :
        (dropOptional '.' ((dropOptional '-' s).dropWhile isDigit)).dropWhile isDigit = [] := by
      simpa [amountPattern, List.isEmpty_iff] using h
    refine ⟨sign, (dropOptional '-' s).takeWhile isDigit, dot,
      dropOptional '.' ((dropOptional '-' s).dropWhile isDigit), ?_, hsign, ?_, hdot, ?_⟩
    · have e1 := (List.takeWhile_append_dropWhile isDigit (dropOptional '-' s)).symm
      calc s = sign ++ dropOptional '-' s := hs
        _ = sign ++ ((dropOptional '-' s).takeWhile isDigit
              ++ (dropOptional '-' s).dropWhile isDigit) := by rw [← e1]
        _ = sign ++ ((dropOptional '-' s).takeWhile isDigit
              ++ (dot ++ dropOptional '.' ((dropOptional '-' s).dropWhile isDigit))) := by
            rw [← hr]
        _ = _ := by simp [List.append_assoc]
    · intro c hc
      exact List.mem_takeWhile_imp hc
    · intro c hc
      by_contra hcd
      have hne :
          (dropOptional '.' ((dropOptional '-' s).dropWhile isDigit)).dropWhile isDigit ≠ [] := by
        rw [Ne, List.dropWhile_eq_nil_iff]
        intro hall
        exact hcd (hall c hc)
      exact hne hempty
  · rintro ⟨sign, d1, dot, d2, rfl, hsign, h1, hdot, h2⟩
    have hstrip : dropOptional '-' (sign ++ d1 ++ dot ++ d2) = d1 ++ dot ++ d2 := by
      rcases hsign with rfl | rfl
      · simpa using dropOptional_minus d1 dot d2 h1 hdot h2
      · simp [dropOptional]
    have hdig : (d1 ++ dot ++ d2).dropWhile isDigit = (dot ++ d2).dropWhile isDigit := by
      rw [List.append_assoc]
      exact dropWhile_digits_append d1 (dot ++ d2) h1
    unfold amountPattern
    rw [hstrip, hdig]
    rcases hdot with rfl | rfl
    · simp [dropWhile_digits d2 h2, dropOptional]
    · have hp : isDigit '.' = false := by decide
      simp [List.dropWhile_cons, hp, dropOptional, dropWhile_digits d2 h2]

/-! ## Properties of the number field -/

theorem amountPattern_chars (v : List Char) (h : amountPattern v = true) :
    ∀ c ∈ v, isAmountChar c = true := by
  obtain ⟨sign, d1, dot, d2, rfl, hsign, h1, hdot, h2⟩ := (amountPattern_iff v).mp h
  intro c hc
  simp only [List.mem_append] at hc
  rcases hc with ((hc | hc) | hc) | hc
  · rcases hsign with rfl | rfl
    · simp at hc
    · simp at hc; subst hc; decide
  · simp [isAmountChar, h1 c hc]
  · rcases hdot with rfl | rfl
    · simp at hc
    · simp at hc; subst hc; decide
  · simp [isAmountChar, h2 c hc]

theorem validExponent_split (r : List Char) (h : validExponent r = true) :
    r = [] ∨ ∃ e t, r = e :: t ∧ (e = 'e' ∨ e = 'E') ∧ t ≠ []
      ∧ ∀ c ∈ t, isDigit c = true ∨ c = '-' ∨ c = '+' := by
  cases r with
  | nil => exact Or.inl rfl
  | cons e t =>
    right
    simp only [validExponent, Bool.and_eq_true, Bool.or_eq_true, beq_iff_eq,
      Bool.not_eq_true', List.all_eq_true] at h
    obtain ⟨⟨he, hne⟩, hall⟩ := h
    refine ⟨e, t, rfl, he, ?_, ?_⟩
    · rintro rfl
      simp [dropExponentSign] at hne
    · cases t with
      | nil => intro c hc; simp at hc
      | cons x r' =>
        by_cases hx : x = '-' ∨ x = '+'
        · simp only [dropExponentSign, hx, if_true] at hall
          intro c hc
          rcases List.mem_cons.mp hc with rfl | hc
          · exact Or.inr hx
          · exact Or.inl (hall c hc)
        · simp only [dropExponentSign, hx, if_false] at hall
          intro c hc
          exact Or.inl (hall c hc)

theorem validFloat_split (x : List Char) (h : validFloat x = true) :
    ∃ body ex, x = body ++ ex ∧ amountPattern body = true
      ∧ (ex = [] ∨ ∃ e t, ex = e :: t ∧ (e = 'e' ∨ e = 'E') ∧ t ≠ []
          ∧ ∀ c ∈ t, isDigit c = true ∨ c = '-' ∨ c = '+') := by
  obtain ⟨sign, hsign, hs⟩ := dropOptional_split '-' x
  have htd := List.takeWhile_append_dropWhile isDigit (dropOptional '-' x)
  have hd1 : ∀ c ∈ (dropOptional '-' x).takeWhile isDigit, isDigit c = true :=
    fun c hc => List.mem_takeWhile_imp hc
  unfold validFloat at h
  simp only [] at h
  cases hr : (dropOptional '-' x).dropWhile isDigit with
  | nil =>
    refine ⟨x, [], by simp, ?_, Or.inl rfl⟩
    rw [amountPattern_iff]
    refine ⟨sign, (dropOptional '-' x).takeWhile isDigit, [], [], ?_, hsign, hd1, Or.inl rfl, ?_⟩
    · rw [hr, List.append_nil] at htd
      rw [htd]; simpa using hs
    · intro c hc; simp at hc
  | cons c t =>
    rw [hr] at h htd
    by_cases hc : c = '.'
    · subst hc
      simp only [if_true, Bool.and_eq_true] at h
      have ht2 := List.takeWhile_append_dropWhile isDigit t
      refine ⟨sign ++ (dropOptional '-' x).takeWhile isDigit ++ ['.'] ++ t.takeWhile isDigit,
        t.dropWhile isDigit, ?_, ?_, validExponent_split _ h.2⟩
      · calc x = sign ++ dropOptional '-' x := hs
          _ = sign ++ ((dropOptional '-' x).takeWhile isDigit ++ '.' :: t) := by rw [htd]
          _ = sign ++ ((dropOptional '-' x).takeWhile isDigit
                ++ '.' :: (t.takeWhile isDigit ++ t.dropWhile isDigit)) := by rw [ht2]
          _ = _ := by simp [List.append_assoc]
      · rw [amountPattern_iff]
        exact ⟨sign, _, ['.'], _, rfl, hsign, hd1, Or.inr rfl,
          fun c hc => List.mem_takeWhile_imp hc⟩
    · simp only [hc, if_false, Bool.and_eq_true] at h
      refine ⟨sign ++ (dropOptional '-' x).takeWhile isDigit, c :: t, ?_, ?_,
        validExponent_split _ h.2⟩
      · calc x = sign ++ dropOptional '-' x := hs
          _ = sign ++ ((dropOptional '-' x).takeWhile isDigit ++ c :: t) := by rw [htd]
          _ = _ := by simp [List.append_assoc]
      · rw [amountPattern_iff]
        refine ⟨sign, _, [], [], by simp, hsign, hd1, Or.inl rfl, ?_⟩
        intro c hc; simp at hc

theorem isDigit_toNat (c : Char) (h : isDigit c = true) : c.toNat < 128 := by
  simp only [isDigit, Bool.and_eq_true, decide_eq_true_eq] at h
  have h2 : c.toNat ≤ '9'.toNat := h.2
  have : '9'.toNat = 57 := by decide
  omega

theorem isAmountChar_toNat (c : Char) (h : isAmountChar c = true) : c.toNat < 128 := by
  simp only [isAmountChar, Bool.or_eq_true, beq_iff_eq] at h
  rcases h with (h | rfl) | rfl
  · exact isDigit_toNat c h
  · decide
  · decide

theorem validFloat_ascii (x : List Char) (h : validFloat x = true) :
    ∀ c ∈ x, c.toNat < 128 := by
  obtain ⟨body, ex, rfl, hb, hex⟩ := validFloat_split x h
  intro c hc
  rcases List.mem_append.mp hc with hc | hc
  · exact isAmountChar_toNat c (amountPattern_chars body hb c hc)
  · rcases hex with rfl | ⟨e, t, rfl, he, _, ht⟩
    · simp at hc
    · rcases List.mem_cons.mp hc with rfl | hc
      · rcases he with rfl | rfl <;> decide
      · rcases ht c hc with h | rfl | rfl
        · exact isDigit_toNat c h
        · decide
        · decide

theorem codeUnits_ascii (x : List Char) (h : ∀ c ∈ x, c.toNat < 128) :
    (codeUnits x).all (fun n => decide (n < 128)) = true
    ∧ (codeUnits x).map Char.ofNat = x := by
  induction x with
  | nil => exact ⟨rfl, rfl⟩
  | cons c cs ih =>
    have hc : c.toNat < 128 := h c (List.mem_cons_self _ _)
    have hlt : c.toNat < 0x10000 := by omega
    obtain ⟨i1, i2⟩ := ih (fun d hd => h d (List.mem_cons_of_mem _ hd))
    simp only [codeUnits, hlt, if_true, List.all_cons, List.map_cons, i1, i2,
      Char.ofNat_toNat, hc, decide_True, Bool.and_self, and_self]

theorem ascii_of_codeUnits (x : List Char)
    (h : (codeUnits x).all (fun n => decide (n < 128)) = true) : ∀ c ∈ x, c.toNat < 128 := by
  induction x with
  | nil => intro c hc; simp at hc
  | cons c cs ih =>
    by_cases hlt : c.toNat < 0x10000
    · simp only [codeUnits, hlt, if_true, List.all_cons, Bool.and_eq_true,
        decide_eq_true_eq] at h
      intro d hd
      rcases List.mem_cons.mp hd with rfl | hd
      · exact h.1
      · exact ih h.2 d hd
    · simp only [codeUnits, hlt, if_false, List.all_cons, Bool.and_eq_true,
        decide_eq_true_eq] at h
      omega

/-- The value of a number field, on a string: the string itself when it is a valid
floating-point number, and otherwise the empty string. -/
theorem numberValue_eq (s : String) :
    numberValue s = if validFloat s.data = true then s else "" := by
  unfold numberValue sanitizeNumber
  by_cases hv : validFloat s.data = true
  · obtain ⟨h1, h2⟩ := codeUnits_ascii s.data (validFloat_ascii s.data hv)
    simp [h1, h2, hv]
  · by_cases ha : (codeUnits s.data).all (fun n => decide (n < 128)) = true
    · obtain ⟨_, h2⟩ := codeUnits_ascii s.data (ascii_of_codeUnits s.data ha)
      simp [h2, hv]
    · simp at ha
      obtain ⟨n, hn, hlt⟩ := ha
      have : ((codeUnits s.data).all (fun n => decide (n < 128))) = false := by
        simp; exact ⟨n, hn, hlt⟩
      simp [this, hv]

theorem amountPattern_of_validFloat (v : List Char) (c : Char)
    (hv : amountPattern v = true) (hf : validFloat (v ++ [c]) = true) :
    amountPattern (v ++ [c]) = true := by
  obtain ⟨body, ex, hx, hb, hex⟩ := validFloat_split (v ++ [c]) hf
  rcases hex with rfl | ⟨e, t, rfl, he, hne, _⟩
  · rw [List.append_nil] at hx
    rw [hx]; exact hb
  · exfalso
    have ht : t.dropLast ++ [t.getLast hne] = t := List.dropLast_append_getLast hne
    have hx' : v ++ [c] = (body ++ e :: t.dropLast) ++ [t.getLast hne] := by
      rw [hx, List.append_assoc, List.cons_append, ht]
    have hveq : v = body ++ e :: t.dropLast := (List.append_inj' hx' rfl).1
    have hmem : e ∈ v := by rw [hveq]; simp
    have := amountPattern_chars v hv e hmem
    rcases he with rfl | rfl <;> exact absurd this (by decide)

/-! ## Properties of the input handler -/

/-- C9 (counterexample).  The field holds `12`, which matches the pattern, and `e` is
typed: the text `12e` does not match, but it is not a valid floating-point number
either, so the number field reads as `""`; that value passes the test, the handler
removes nothing, and the value left is `""`: neither `12` nor `12e` nor `1`. -/
theorem inputHandler_removes_nothing_after_invalid_key :
    amountPattern "12".data = true
    ∧ amountPattern ("12".push 'e').data = false
    ∧ (onInput ("12".push 'e') samplePage).amountInput = ""
    ∧ (onInput ("12".push 'e') samplePage).amountInput ≠ "12"
    ∧ (onInput ("12".push 'e') samplePage).amountInput ≠ "12e"
    ∧ (onInput ("12".push 'e') samplePage).amountInput ≠ "1" := by
  decide

/-- C9 (amended).  When the field held a value `v` matching `/^-?\d*\.?\d*$/` and one
character `c` is appended, the `input` handler leaves a field value that matches the
pattern, and it removes nothing: the value is what the number field reads for the text
`v + c`, which is `v + c` itself when that is a valid floating-point number (and then
`v + c` matches the pattern) and the empty string otherwise.  A value that already
matches is left as it is. -/
theorem inputHandler_keeps_pattern (v : String) (c : Char) (s : Page)
    (hv : amountPattern v.data = true) :
    amountPattern (onInput (v.push c) s).amountInput.data = true
    ∧ (onInput (v.push c) s).amountInput = numberValue (v.push c)
    ∧ (validFloat (v.push c).data = true →
        (onInput (v.push c) s).amountInput = v.push c ∧ amountPattern (v.push c).data = true)
    ∧ (validFloat (v.push c).data = false → (onInput (v.push c) s).amountInput = "")
    ∧ (∀ w : String, amountPattern w.data = true → inputHandler w = w) := by
  have hd : (v.push c).data = v.data ++ [c] := by simp [String.push]
  have hpat : amountPattern (numberValue (v.push c)).data = true := by
    rw [numberValue_eq]
    by_cases hf : validFloat (v.push c).data = true
    · rw [if_pos hf, hd]
      rw [hd] at hf
      exact amountPattern_of_validFloat v.data c hv hf
    · rw [if_neg hf]
      rfl
  have hsame : (onInput (v.push c) s).amountInput = numberValue (v.push c) := by
    simp [onInput, inputHandler, hpat]
  refine ⟨by rw [hsame]; exact hpat, hsame, ?_, ?_, ?_⟩
  · intro hf
    have hval : numberValue (v.push c) = v.push c := by rw [numberValue_eq, if_pos hf]
    refine ⟨by rw [hsame, hval], ?_⟩
    rw [hval] at hpat
    exact hpat
  · intro hf
    rw [hsame, numberValue_eq, hf]
    simp
  · intro w hw
    simp [inputHandler, hw]

theorem inputHandler_keeps_pattern_witness :
    amountPattern "12".data = true
    ∧ amountPattern (onInput ("12".push '.') samplePage).amountInput.data = true
    ∧ (onInput ("12".push '5') samplePage).amountInput = "125"
    ∧ (onInput ("12".push '.') samplePage).amountInput = "" :=
  ⟨by decide,
   (inputHandler_keeps_pattern "12" '.' samplePage (by decide)).1,
   ((inputHandler_keeps_pattern "12" '5' samplePage (by decide)).2.2.1 (by decide)).1,
   (inputHandler_keeps_pattern "12" '.' samplePage (by decide)).2.2.2.1 (by decide)⟩

/-- C8 (evaluation at the failing input).  On the field value `-1e-5` the paste handler
writes back `-1-5`: the first `-` is at index 0, so the guard `value.indexOf('-') > 0`
is false and no `-` is removed; the string written back holds two `-` characters, the
second one at index 2.  The field holds `-1e-5` when `-1e-55` is pasted and the `input`
handler, which runs first, has removed the last character; the number field then
stores the string written back, which is not a valid number, as `""`. -/
theorem pasteHandler_keeps_two_minus :
    pasteHandler "-1e-5" = "-1-5"
    ∧ (pasteHandler "-1e-5").data.count '-' = 2
    ∧ (pasteHandler "-1e-5").data.get? 2 = some '-'
    ∧ inputHandler "-1e-55" = "-1e-5"
    ∧ (onInput "-1e-55" samplePage).amountInput = "-1e-5"
    ∧ pasteHandler (onInput "-1e-55" samplePage).amountInput = "-1-5"
    ∧ (onPaste (onInput "-1e-55" samplePage)).amountInput = ""
    ∧ pasteHandler "--5" = "--5" := by
  decide

/-! ## Properties of the blur handler -/

/-- C10 (evaluation at the failing input).  On the field content `0.001` the blur
handler passes the guard `value <= 0` (the parsed value is positive) and writes back
`value.toFixed(2)`, which is `0.00`: the field then parses to a number that is not
greater than 0, and is not `1` either. -/
theorem blurHandler_rounds_small_amount_to_zero :
    decimalBuiltins.leZero (decimalBuiltins.parseFloat "0.001") = false
    ∧ blurHandler decimalBuiltins "0.001" = "0.00"
    ∧ decimalBuiltins.leZero (decimalBuiltins.parseFloat (blurHandler decimalBuiltins "0.001")) = true
    ∧ (onBlur decimalBuiltins { samplePage with amountInput := "0.001" }).amountInput = "0.00" := by
  decide

/-- C4.  When `parseFloat` of the amount field is `NaN` or `<= 0`, the blur handler
writes `"1"` to the field, and so does `updateExchangeRate` before it issues the
request; `updateExchangeRate` then converts the amount 1: its remaining steps run with
`amtVal = 1`, and a rendered result reads `1 FROM = (1 * rate).toFixed(2) TO` (the
error text when converting `rate` to a number throws). -/
theorem invalid_amount_normalizes_to_one (B : Builtins) (s : Page)
    (h : B.isNaN (B.parseFloat s.amountInput) = true
      ∨ B.leZero (B.parseFloat s.amountInput) = true) :
    blurHandler B s.amountInput = "1"
    ∧ (onBlur B s).amountInput = "1"
    ∧ (updateExchangeRateBegin B s).1.amountInput = "1"
    ∧ (updateExchangeRateBegin B s).2.1 = B.ofNat 1
    ∧ (∀ (net : String → FetchOutcome B.Num) (during : Page → Page),
        (updateExchangeRate B net during s).1 =
          updateExchangeRateResume B (B.ofNat 1) (during (updateExchangeRateBegin B s).1)
            (net (updateExchangeRateBegin B s).2.2))
    ∧ (∀ (net : String → FetchOutcome B.Num) (during : Page → Page) (status : Nat)
        (data rate : JSValue B.Num),
        net (updateExchangeRateBegin B s).2.2 = .response true status (some data) →
        rateLookup B data (during (updateExchangeRateBegin B s).1).fromCurr
          (during (updateExchangeRateBegin B s).1).toCurr = .ok rate →
        toBoolean B rate = true →
        (updateExchangeRate B net during s).1.msg =
          match toNumber B rate with
          | .ok n =>
            B.numberToString (B.ofNat 1) ++ " " ++ (during (updateExchangeRateBegin B s).1).fromCurr
              ++ " = " ++ B.toFixed2 (B.mul (B.ofNat 1) n) ++ " "
              ++ (during (updateExchangeRateBegin B s).1).toCurr
          | .error _ => "Error getting exchange rate. Please try again.") := by
  have hc : (B.isNaN (B.parseFloat s.amountInput) || B.leZero (B.parseFloat s.amountInput)) = true := by
    rcases h with h | h <;> simp [h]
  have hamt : (updateExchangeRateBegin B s).2.1 = B.ofNat 1 := by
    rw [begin_amtVal, normalizedAmount, if_pos hc]
  refine ⟨?_, ?_, ?_, hamt, ?_, ?_⟩
  · simp [blurHandler, hc]
  · simp [onBlur, blurHandler, hc, numberValue_one]
  · rw [begin_page]
    simp [hc]
  · intro net during
    rw [updateExchangeRate_eq, hamt]
  · intro net during status data rate hnet hl hb
    rw [updateExchangeRate_eq, hamt]
    simp only []
    rw [hnet]
    cases hn : toNumber B rate with
    | ok n =>
      rw [resume_success B _ _ status data rate n hl hb hn]
      rfl
    | error e =>
      rw [resume_conversion_error B _ _ status data rate e hl hb hn]
      rfl

theorem invalid_amount_normalizes_to_one_witness :
    decimalBuiltins.isNaN (decimalBuiltins.parseFloat "") = true
    ∧ blurHandler decimalBuiltins "" = "1"
    ∧ (updateExchangeRate decimalBuiltins (okNetwork (usdInrBody (.fin false 8315 2)))
        id { samplePage with amountInput := "" }).1.msg = "1 USD = 83.15 INR" :=
  ⟨by decide,
   (invalid_amount_normalizes_to_one decimalBuiltins { samplePage with amountInput := "" }
      (Or.inl (by decide))).1,
   ((invalid_amount_normalizes_to_one decimalBuiltins { samplePage with amountInput := "" }
      (Or.inl (by decide))).2.2.2.2.2
      (okNetwork (usdInrBody (.fin false 8315 2))) id 200 (usdInrBody (.fin false 8315 2))
      (.num (.fin false 8315 2)) rfl rfl (by decide)).trans (by decide)⟩

/-! ## Properties of `updateExchangeRate` -/

/-- C1 (counterexample).  The response `{"usd": {"inr": 0}}` arrives with status 200 and
holds the rate 0 at `data["usd"]["inr"]`; the guard `if (!rate)` throws, so the message
is the error text and not `1 USD = 0.00 INR`. -/
theorem zero_rate_is_not_rendered :
    rateLookup decimalBuiltins (usdInrBody (.fin false 0 0)) "USD" "INR"
        = .ok (.num (.fin false 0 0))
    ∧ (updateExchangeRate decimalBuiltins (okNetwork (usdInrBody (.fin false 0 0))) id
        samplePage).1.msg = "Error getting exchange rate. Please try again."
    ∧ decimalBuiltins.numberToString (normalizedAmount decimalBuiltins samplePage.amountInput)
        ++ " " ++ samplePage.fromCurr ++ " = "
        ++ decimalBuiltins.toFixed2 (decimalBuiltins.mul
            (normalizedAmount decimalBuiltins samplePage.amountInput) (.fin false 0 0))
        ++ " " ++ samplePage.toCurr = "1 USD = 0.00 INR"
    ∧ (updateExchangeRate decimalBuiltins (okNetwork (usdInrBody (.fin false 0 0))) id
        samplePage).1.msg ≠ "1 USD = 0.00 INR" :=
  ⟨rfl, by decide, by decide, by decide⟩

/-- C1 (amended).  When the fetch succeeds (`response.ok`) and the rate found at
`data[from.toLowerCase()][to.toLowerCase()]` is a number `R` other than `0`, `-0` and
`NaN`, `updateExchangeRate` sets the message to exactly `A FROM = X TO`, where `A` is the
parsed amount-field value after normalization, `FROM` and `TO` are the codes selected
when the response is handled, and `X` is `(A * R).toFixed(2)`. -/
theorem updateExchangeRate_renders_rate (B : Builtins) (net : String → FetchOutcome B.Num)
    (during : Page → Page) (s : Page) (status : Nat) (data : JSValue B.Num) (R : B.Num)
    (hnet : net (updateExchangeRateBegin B s).2.2 = .response true status (some data))
    (hrate : rateLookup B data (during (updateExchangeRateBegin B s).1).fromCurr
      (during (updateExchangeRateBegin B s).1).toCurr = .ok (.num R))
    (hzero : B.isZero R = false) (hnan : B.isNaN R = false) :
    (updateExchangeRate B net during s).1.msg =
      B.numberToString (normalizedAmount B s.amountInput) ++ " "
        ++ (during (updateExchangeRateBegin B s).1).fromCurr ++ " = "
        ++ B.toFixed2 (B.mul (normalizedAmount B s.amountInput) R) ++ " "
        ++ (during (updateExchangeRateBegin B s).1).toCurr := by
  have hb : toBoolean B (.num R) = true := by simp [toBoolean, hzero, hnan]
  rw [updateExchangeRate_eq]
  simp only []
  rw [hnet, resume_success B _ _ status data _ R hrate hb rfl, begin_amtVal]
  rfl

theorem updateExchangeRate_renders_rate_witness :
    (updateExchangeRate decimalBuiltins (okNetwork (usdInrBody (.fin false 8315 2))) id
      { samplePage with amountInput := "2.50" }).1.msg = "2.5 USD = 207.88 INR" :=
  (updateExchangeRate_renders_rate decimalBuiltins (okNetwork (usdInrBody (.fin false 8315 2)))
    id { samplePage with amountInput := "2.50" } 200 (usdInrBody (.fin false 8315 2))
    (.fin false 8315 2) rfl rfl (by decide) (by decide)).trans (by decide)

/-- C2.  When the response is not ok, or `fetch` rejects, or decoding the body rejects,
or the decoded body holds no rate for the selected pair (the from-key is missing, or
the to-key is missing under it), the run ends with the message exactly
`Error getting exchange rate. Please try again.`; the page is the one the `catch`
block leaves, so no conversion result is rendered. -/
theorem updateExchangeRate_failure_shows_error (B : Builtins)
    (net : String → FetchOutcome B.Num) (during : Page → Page) (s : Page)
    (h : net (updateExchangeRateBegin B s).2.2 = .rejected
      ∨ (∃ status json, net (updateExchangeRateBegin B s).2.2 = .response false status json)
      ∨ (∃ status, net (updateExchangeRateBegin B s).2.2 = .response true status none)
      ∨ (∃ status data, net (updateExchangeRateBegin B s).2.2 = .response true status (some data)
          ∧ (hasOwn data (B.toLowerCase (during (updateExchangeRateBegin B s).1).fromCurr) = false
            ∨ ∃ inner,
                getProp B data (B.toLowerCase (during (updateExchangeRateBegin B s).1).fromCurr)
                  = .ok inner
                ∧ hasOwn inner (B.toLowerCase (during (updateExchangeRateBegin B s).1).toCurr)
                  = false))) :
    (updateExchangeRate B net during s).1.msg = "Error getting exchange rate. Please try again."
    ∧ (updateExchangeRate B net during s).1 = errorPage (during (updateExchangeRateBegin B s).1) := by
  have key : (updateExchangeRate B net during s).1
      = errorPage (during (updateExchangeRateBegin B s).1) := by
    rw [updateExchangeRate_eq]
    simp only []
    rcases h with h | ⟨status, json, h⟩ | ⟨status, h⟩ | ⟨status, data, h, hm⟩
    · rw [h]
      exact resume_of_error B _ _ _ _ rfl
    · rw [h]
      exact resume_of_error B _ _ _ _ rfl
    · rw [h]
      exact resume_of_error B _ _ _ _ rfl
    · rw [h]
      rcases rateLookup_missing B data _ _ hm with ⟨e, he⟩ | hu
      · exact resume_lookup_error B _ _ status data e he
      · exact resume_falsy B _ _ status data .undefined hu rfl
  exact ⟨by rw [key]; rfl, key⟩

theorem updateExchangeRate_failure_shows_error_witness :
    (updateExchangeRate decimalBuiltins (fun _ => .response false 404 none) id samplePage).1.msg
      = "Error getting exchange rate. Please try again." :=
  (updateExchangeRate_failure_shows_error decimalBuiltins (fun _ => .response false 404 none)
    id samplePage (Or.inr (Or.inl ⟨404, none, rfl⟩))).1

/-- C3.  In every run of `updateExchangeRate` the button is disabled, with the label
`Loading...`, on the page as it is when the request is issued; and however the awaited
calls settle (success, HTTP error, missing rate, network error), the run ends with the
button enabled and labelled `Get Exchange Rate`. -/
theorem updateExchangeRate_button_state (B : Builtins) (net : String → FetchOutcome B.Num)
    (during : Page → Page) (s : Page) :
    (updateExchangeRateBegin B s).1.btnDisabled = true
    ∧ (updateExchangeRateBegin B s).1.btnText = "Loading..."
    ∧ (updateExchangeRate B net during s).1.btnDisabled = false
    ∧ (updateExchangeRate B net during s).1.btnText = "Get Exchange Rate" := by
  refine ⟨by rw [begin_page], by rw [begin_page], ?_, ?_⟩
  · rw [updateExchangeRate_eq]
    simp only []
    rcases resume_cases B (updateExchangeRateBegin B s).2.1 (during (updateExchangeRateBegin B s).1)
      (net (updateExchangeRateBegin B s).2.2) with h | ⟨rate, h⟩
    · rw [h]; rfl
    · rw [h]; rfl
  · rw [updateExchangeRate_eq]
    simp only []
    rcases resume_cases B (updateExchangeRateBegin B s).2.1 (during (updateExchangeRateBegin B s).1)
      (net (updateExchangeRateBegin B s).2.2) with h | ⟨rate, h⟩
    · rw [h]; rfl
    · rw [h]; rfl

/-- C6 (counterexample).  USD is selected when the run starts, and the user picks EUR
in the from-select while the request is pending.  The one request goes to `usd.json`;
the body holds the rate 83.15 at `data["usd"]["inr"]`, yet the rate is read at the key
`eur`, the lowercase of the code selected when the response is handled: the message
shows the rate 90, and with a body that has no `eur` key it is the error text. -/
theorem selection_changed_while_waiting :
    (updateExchangeRate decimalBuiltins (okNetwork usdEurBody)
        (changeHandler sampleCountryList .fromCurr "EUR") samplePage).2
      = ["https://cdn.jsdelivr.net/npm/@fawazahmed0/currency-api@latest/v1/currencies/usd.json"]
    ∧ rateLookup decimalBuiltins usdEurBody "USD" "INR" = .ok (.num (.fin false 8315 2))
    ∧ (updateExchangeRate decimalBuiltins (okNetwork usdEurBody)
        (changeHandler sampleCountryList .fromCurr "EUR") samplePage).1.msg
      = "1 EUR = 90.00 INR"
    ∧ rateLookup decimalBuiltins (usdInrBody (.fin false 8315 2)) "USD" "INR"
      = .ok (.num (.fin false 8315 2))
    ∧ (updateExchangeRate decimalBuiltins (okNetwork (usdInrBody (.fin false 8315 2)))
        (changeHandler sampleCountryList .fromCurr "EUR") samplePage).1.msg
      = "Error getting exchange rate. Please try again." :=
  ⟨by decide, rfl, by decide, rfl, by decide⟩

/-- C6 (amended).  With the from-code `c` selected when the run starts,
`updateExchangeRate` issues exactly one request, to `baseURL + "/" + lowercase(c) + ".json"`.
The decoded response matters only through the value at the key `lowercase(c')` and then
the key `lowercase(t')`, where `c'` and `t'` are the codes selected when the response is
handled: two bodies with the same value there end in the same page, and from a body of
the shape `{ [lowercase(c')]: { [lowercase(t')]: R } }` with a non-zero number `R` the
result is rendered with the rate `R`.  When the selection is not changed while the run
waits, these keys are `lowercase(c)` and the lowercase of the to-code selected at the
start. -/
theorem updateExchangeRate_request_and_lookup (B : Builtins)
    (net : String → FetchOutcome B.Num) (during : Page → Page) (s : Page) :
    (updateExchangeRate B net during s).2
        = [baseURL ++ "/" ++ B.toLowerCase s.fromCurr ++ ".json"]
    ∧ (∀ (net' : String → FetchOutcome B.Num) (status status' : Nat) (data data' : JSValue B.Num),
        net (baseURL ++ "/" ++ B.toLowerCase s.fromCurr ++ ".json")
          = .response true status (some data) →
        net' (baseURL ++ "/" ++ B.toLowerCase s.fromCurr ++ ".json")
          = .response true status' (some data') →
        rateLookup B data (during (updateExchangeRateBegin B s).1).fromCurr
            (during (updateExchangeRateBegin B s).1).toCurr
          = rateLookup B data' (during (updateExchangeRateBegin B s).1).fromCurr
            (during (updateExchangeRateBegin B s).1).toCurr →
        updateExchangeRate B net during s = updateExchangeRate B net' during s)
    ∧ (∀ (status : Nat) (R : B.Num),
        net (baseURL ++ "/" ++ B.toLowerCase s.fromCurr ++ ".json")
          = .response true status
              (some (.obj [(B.toLowerCase (during (updateExchangeRateBegin B s).1).fromCurr,
                .obj [(B.toLowerCase (during (updateExchangeRateBegin B s).1).toCurr,
                  .num R)])])) →
        B.isZero R = false → B.isNaN R = false →
        (updateExchangeRate B net during s).1.msg =
          B.numberToString (normalizedAmount B s.amountInput) ++ " "
            ++ (during (updateExchangeRateBegin B s).1).fromCurr ++ " = "
            ++ B.toFixed2 (B.mul (normalizedAmount B s.amountInput) R) ++ " "
            ++ (during (updateExchangeRateBegin B s).1).toCurr)
    ∧ ((during (updateExchangeRateBegin B s).1).fromCurr = s.fromCurr →
        (during (updateExchangeRateBegin B s).1).toCurr = s.toCurr →
        ∀ data : JSValue B.Num,
          rateLookup B data (during (updateExchangeRateBegin B s).1).fromCurr
              (during (updateExchangeRateBegin B s).1).toCurr
            = rateLookup B data s.fromCurr s.toCurr) := by
  refine ⟨?_, ?_, ?_, ?_⟩
  · rw [updateExchangeRate_eq, begin_url]
  · intro net' status status' data data' hn hn' hl
    rw [updateExchangeRate_eq, updateExchangeRate_eq, begin_url, hn, hn']
    congr 1
    simp only [updateExchangeRateResume, try_decoded, hl]
  · intro status R hn hz hnan
    have hb : toBoolean B (.num R) = true := by simp [toBoolean, hz, hnan]
    have hl : rateLookup B
        (.obj [(B.toLowerCase (during (updateExchangeRateBegin B s).1).fromCurr,
          .obj [(B.toLowerCase (during (updateExchangeRateBegin B s).1).toCurr, .num R)])])
        (during (updateExchangeRateBegin B s).1).fromCurr
        (during (updateExchangeRateBegin B s).1).toCurr = .ok (.num R) := by
      simp [rateLookup, getProp, List.lookup]
    rw [updateExchangeRate_eq, begin_url, hn]
    simp only []
    rw [resume_success B _ _ status _ _ R hl hb rfl, begin_amtVal]
    simp [resultPage]
  · intro hfrom hto data
    rw [hfrom, hto]

theorem updateExchangeRate_request_and_lookup_witness :
    (updateExchangeRate decimalBuiltins (okNetwork (usdInrBody (.fin false 8315 2))) id
        samplePage).2
      = ["https://cdn.jsdelivr.net/npm/@fawazahmed0/currency-api@latest/v1/currencies/usd.json"]
    ∧ (updateExchangeRate decimalBuiltins (okNetwork (usdInrBody (.fin false 8315 2))) id
        samplePage).1.msg = "1 USD = 83.15 INR" :=
  ⟨(updateExchangeRate_request_and_lookup decimalBuiltins
      (okNetwork (usdInrBody (.fin false 8315 2))) id samplePage).1.trans (by decide),
   ((updateExchangeRate_request_and_lookup decimalBuiltins
      (okNetwork (usdInrBody (.fin false 8315 2))) id samplePage).2.2.1 200
      (.fin false 8315 2) rfl (by decide) (by decide)).trans (by decide)⟩

/-! ## Properties of the swap and connectivity handlers -/

/-- C5.  When the selected codes `f` and `t` are both keys of `countryList` and both
flag images exist, after the swap handler the from-select holds `t` and the to-select
holds `f`, the from flag has the source `https://flagsapi.com/{countryList[t]}/flat/64.png`
and the to flag `https://flagsapi.com/{countryList[f]}/flat/64.png`; so when the flags
showed the selections before the swap, the two select values and the two flag sources
are exchanged. -/
theorem swapHandler_swaps (countryList : List (String × String)) (s : Page)
    (cf ct : String) (fi ti : Img)
    (hf : countryList.lookup s.fromCurr = some cf)
    (ht : countryList.lookup s.toCurr = some ct)
    (hfi : s.fromImg = some fi) (hti : s.toImg = some ti) :
    (swapHandler countryList s).fromCurr = s.toCurr
    ∧ (swapHandler countryList s).toCurr = s.fromCurr
    ∧ (swapHandler countryList s).fromImg.map Img.src
        = some ("https://flagsapi.com/" ++ ct ++ "/flat/64.png")
    ∧ (swapHandler countryList s).toImg.map Img.src
        = some ("https://flagsapi.com/" ++ cf ++ "/flat/64.png")
    ∧ (fi.src = "https://flagsapi.com/" ++ cf ++ "/flat/64.png" →
        ti.src = "https://flagsapi.com/" ++ ct ++ "/flat/64.png" →
        (swapHandler countryList s).fromImg.map Img.src = s.toImg.map Img.src
        ∧ (swapHandler countryList s).toImg.map Img.src = s.fromImg.map Img.src) := by
  have e1 : (swapHandler countryList s).fromCurr = s.toCurr := by
    simp [swapHandler, updateFlag, setSelectValue, ht]
  have e2 : (swapHandler countryList s).toCurr = s.fromCurr := by
    simp [swapHandler, updateFlag, setSelectValue, hf]
  have e3 : (swapHandler countryList s).fromImg.map Img.src
      = some ("https://flagsapi.com/" ++ ct ++ "/flat/64.png") := by
    simp [swapHandler, updateFlag, setSelectValue, countryCode, hf, ht, hfi]
  have e4 : (swapHandler countryList s).toImg.map Img.src
      = some ("https://flagsapi.com/" ++ cf ++ "/flat/64.png") := by
    simp [swapHandler, updateFlag, setSelectValue, countryCode, hf, ht, hti]
  refine ⟨e1, e2, e3, e4, ?_⟩
  intro h1 h2
  rw [e3, e4, hfi, hti]
  simp [h1, h2]

theorem swapHandler_swaps_witness :
    (swapHandler sampleCountryList samplePage).fromCurr = "INR"
    ∧ (swapHandler sampleCountryList samplePage).toCurr = "USD"
    ∧ (swapHandler sampleCountryList samplePage).fromImg.map Img.src
        = some "https://flagsapi.com/IN/flat/64.png"
    ∧ (swapHandler sampleCountryList samplePage).toImg.map Img.src
        = some "https://flagsapi.com/US/flat/64.png" :=
  ⟨(swapHandler_swaps sampleCountryList samplePage "US" "IN" _ _ (by decide) (by decide)
      rfl rfl).1,
   (swapHandler_swaps sampleCountryList samplePage "US" "IN" _ _ (by decide) (by decide)
      rfl rfl).2.1,
   (swapHandler_swaps sampleCountryList samplePage "US" "IN" _ _ (by decide) (by decide)
      rfl rfl).2.2.1,
   (swapHandler_swaps sampleCountryList samplePage "US" "IN" _ _ (by decide) (by decide)
      rfl rfl).2.2.2.1⟩

/-- C7.  On every page the `offline` handler sets the message to exactly
`No internet connection. Please check your connection.` and leaves every other property
(selected currencies, amount, button label and state, flags) as it was; the `online`
handler leaves the page as it was. -/
theorem offline_online_handlers (s : Page) :
    (offlineHandler s).msg = "No internet connection. Please check your connection."
    ∧ offlineHandler s
        = { s with msg := "No internet connection. Please check your connection." }
    ∧ (offlineHandler s).fromCurr = s.fromCurr
    ∧ (offlineHandler s).toCurr = s.toCurr
    ∧ (offlineHandler s).amountInput = s.amountInput
    ∧ (offlineHandler s).btnText = s.btnText
    ∧ (offlineHandler s).btnDisabled = s.btnDisabled
    ∧ (offlineHandler s).fromImg = s.fromImg
    ∧ (offlineHandler s).toImg = s.toImg
    ∧ onlineHandler s = s :=
  ⟨rfl, rfl, rfl, rfl, rfl, rfl, rfl, rfl, rfl, rfl⟩

end CurrencyConverter
